import Mathlib

/-!
Verification of the authentication/authorization core of the ccb-lms
services (auth-service, course-service, shared ccb-common crate, and the
stub JWT middleware), as a shallow embedding in Lean 4.

Conventions of the embedding:
* Machine 64/128-bit values (timestamps, UUIDs) are modelled as `Nat`;
  no arithmetic in this core can overflow in practice, and no claim is
  about wraparound.
* The external `uuid` crate's `Uuid` type is modelled abstractly as `Nat`
  with its decimal rendering standing in for `Uuid::to_string` and
  `Nat`-parsing standing in for `Uuid::parse_str`: what the claims use is
  only that rendering and parsing round-trip and that some strings fail
  to parse.
* The external `jsonwebtoken` crate (Encode/Decode) is modelled from the
  spec's description of the Credential Codec: a token is a symbolic
  signed object carrying its payload and the secret that signed it (a
  stand-in for an HMAC signature, which is determined by exactly those
  two), or a malformed blob; decoding verifies the signature against the
  verifying secret and rejects expiries at or before the current time.
* Database tables are modelled as in-memory lists of rows; a fallible
  insert additionally takes an optional injected storage fault so that
  the error-classification branches of the handlers are exercised.
* actix-web handlers become pure functions from their inputs (and the
  table state) to a result value mirroring the `HttpResponse` they build
  (status + body), paired with the resulting table state.
-/

namespace Ccb

/-- `UserRole` from ccb-common/src/lib.rs: closed enumeration of roles. -/
inductive UserRole where
  | Student
  | Instructor
  | Admin
deriving DecidableEq, Repr

/-- `Claims` from ccb-common/src/lib.rs: the JWT claim payload. -/
structure Claims where
  sub : String
  role : UserRole
  exp : Nat
deriving DecidableEq, Repr

/-- The `uuid::Uuid` type, modelled abstractly (see the header comment). -/
abbrev Uuid := Nat

/-- Models `Uuid::to_string` (`user.id.to_string()` in the auth service). -/
def uuidToString (u : Uuid) : String := toString u

/-- Auxiliary digit-list parser for `uuidParse`. -/
def uuidParseAux : List Char → Nat → Option Nat
  | [], acc => some acc
  | ch :: cs, acc =>
    if ch.isDigit then uuidParseAux cs (acc * 10 + (ch.toNat - 48))
    else none

/-- Models `Uuid::parse_str` on the abstract UUID rendering: a non-empty
all-digit string parses back to the rendered value, anything else fails. -/
def uuidParse (s : String) : Option Uuid :=
  match s.data with
  | [] => none
  | cs => uuidParseAux cs 0

/-- `AuthenticatedUser` from ccb-common/src/lib.rs. -/
structure AuthenticatedUser where
  id : Uuid
  role : UserRole
deriving DecidableEq, Repr

/-- A token on the wire, as seen by the jsonwebtoken codec: either a
structurally well-formed token whose signature was produced with the
recorded secret, or a blob that does not parse into the claim shape. -/
inductive TokenWire where
  | signed (payload : Claims) (sigSecret : String)
  | malformed
deriving DecidableEq, Repr

/-- Models `jsonwebtoken::encode` with `EncodingKey::from_secret`. -/
def encodeJwt (secret : String) (c : Claims) : TokenWire := .signed c secret

/-- Models `jsonwebtoken::decode::<Claims>` with
`DecodingKey::from_secret` and default validation, per the spec's Codec
description: accept exactly a well-signed token whose expiry is strictly
in the future; reject wrong-secret signatures, expiries at or before
`now`, and malformed payloads. -/
def decodeJwt (secret : String) (now : Nat) (t : TokenWire) : Option Claims :=
  match t with
  | .signed payload s => if s = secret ∧ now < payload.exp then some payload else none
  | .malformed => none

/-- The value of a present `Authorization` header: either the exact
prefix `"Bearer "` followed by a token, or any other header value
(including values not readable as a string). -/
inductive AuthHeaderValue where
  | bearer (t : TokenWire)
  | other (s : String)
deriving DecidableEq, Repr

/-- The secret used by `AuthenticatedUser::from_request`:
`env::var("JWT_SECRET").unwrap_or_else(|_| "default_secret".to_string())`. -/
def jwtSecretOf (env : Option String) : String := env.getD "default_secret"

/-- `AuthenticatedUser::from_request` from ccb-common/src/lib.rs: the
Identity Extractor run on the `Authorization` header of a request.
Every failure path returns the same `ErrorUnauthorized` message. -/
def from_request (env : Option String) (now : Nat) (hdr : Option AuthHeaderValue) :
    Except String AuthenticatedUser :=
  match hdr with
  | some (.bearer t) =>
    match decodeJwt (jwtSecretOf env) now t with
    | some c =>
      match uuidParse c.sub with
      | some uid => .ok ⟨uid, c.role⟩
      | none => .error "Invalid or missing token"
    | none => .error "Invalid or missing token"
  | _ => .error "Invalid or missing token"

/-- The `User` row of the auth service (users table). -/
structure User where
  id : Uuid
  username : String
  email : String
  first_name : String
  last_name : String
  password_hash : String
  role : UserRole
  created_at : Nat
deriving DecidableEq, Repr

/-- The `RegisterUser` request body of POST /register. -/
structure RegisterUser where
  username : String
  password : String
  email : String
  first_name : String
  last_name : String
deriving DecidableEq, Repr

/-- The `LoginUser` request body of POST /login. -/
structure LoginUser where
  username : String
  password : String
deriving DecidableEq, Repr

/-- The `sqlx::Error` cases the register handler distinguishes: a
database error that `is_unique_violation`, and every other failure. -/
inductive SqlxError where
  | uniqueViolation
  | otherFailure
deriving DecidableEq, Repr

/-- Outcome of the `register` handler, mirroring its `HttpResponse`s. -/
inductive RegisterResult where
  | created (u : User)
  | conflict (body : String)
  | internalError (body : String)
deriving DecidableEq, Repr

/-- The INSERT of the register handler against the users table: the
UNIQUE constraint on `username` raises a unique violation; `fault`
injects any other storage failure. On success the row is appended with
the database-default role `Student` already filled in by the caller. -/
def insert_user (db : List User) (u : User) (fault : Option SqlxError) :
    Except SqlxError User :=
  match fault with
  | some e => .error e
  | none =>
    if db.any (fun w => decide (w.username = u.username)) then .error .uniqueViolation
    else .ok u

/-- The `register` handler of the auth service. `hashFn` is the bcrypt
`hash` primitive (run on a blocking thread; only its result matters
here); `newId` and `now` are the id and timestamp the database generates
for the new row. Returns the response together with the table state
after the call. -/
def register (hashFn : String → Except String String) (db : List User)
    (reg : RegisterUser) (newId : Uuid) (now : Nat) (fault : Option SqlxError) :
    RegisterResult × List User :=
  match hashFn reg.password with
  | .error _ => (.internalError "Error hashing password", db)
  | .ok ph =>
    let u : User :=
      ⟨newId, reg.username, reg.email, reg.first_name, reg.last_name, ph, .Student, now⟩
    match insert_user db u fault with
    | .ok u2 => (.created u2, db ++ [u2])
    | .error .uniqueViolation => (.conflict "Username already exists", db)
    | .error .otherFailure => (.internalError "Failed to create user", db)

/-- Outcome of the `login` handler. `panicked` models the `.expect`
panic taken when `JWT_SECRET` is absent from the environment. -/
inductive LoginResult where
  | unauthorized (body : String)
  | internalError (body : String)
  | okToken (t : TokenWire)
  | panicked (msg : String)
deriving DecidableEq, Repr

/-- The login handler's user lookup:
`SELECT ... FROM users WHERE username = $1` with `fetch_optional`. -/
def findUserByUsername (db : List User) (uname : String) : Option User :=
  db.find? (fun u => decide (u.username = uname))

/-- The `login` handler of the auth service. `pwVerify` is the bcrypt
`verify` primitive (password, stored hash); `env` is the value of
`JWT_SECRET`; `now` is `Utc::now().timestamp()` in seconds. -/
def login (pwVerify : String → String → Except String Bool) (env : Option String)
    (now : Nat) (db : List User) (creds : LoginUser) : LoginResult :=
  match findUserByUsername db creds.username with
  | none => .unauthorized "Invalid username or password"
  | some user =>
    match pwVerify creds.password user.password_hash with
    | .error _ => .internalError "Error verifying password"
    | .ok valid =>
      if !valid then .unauthorized "Invalid username or password"
      else
        match env with
        | none => .panicked "JWT_SECRET must be set"
        | some secret =>
          let expiration := now + 24 * 60 * 60
          let claims : Claims := ⟨uuidToString user.id, user.role, expiration⟩
          .okToken (encodeJwt secret claims)

/-- The environment variables the auth service's `main` touches. -/
structure Env where
  jwt_secret : Option String
  database_url : Option String
deriving DecidableEq, Repr

/-- The environment checks of the auth service's `main`: it `.expect`s
`DATABASE_URL` and reads nothing else; in particular `JWT_SECRET` is
never read at startup. -/
def auth_main_startup (env : Env) : Except String Unit :=
  match env.database_url with
  | none => .error "DATABASE_URL must be set"
  | some _ => .ok ()

/-- The `Course` row of the course service (courses table). -/
structure Course where
  id : Uuid
  title : String
  description : Option String
  instructor_id : Uuid
  created_at : Nat
  updated_at : Nat
deriving DecidableEq, Repr

/-- The `UpdateCourse` request body of PUT /courses/:id; both fields
optional. -/
structure UpdateCourse where
  title : Option String
  description : Option String
deriving DecidableEq, Repr

/-- Outcome of `update_course_by_id`, mirroring its `HttpResponse`s. -/
inductive UpdateResult where
  | okCourse (c : Course)
  | notFound (body : String)
  | forbidden (body : String)
  | internalError
deriving DecidableEq, Repr

/-- HTTP status of an update outcome. -/
def UpdateResult.status : UpdateResult → Nat
  | .okCourse _ => 200
  | .notFound _ => 404
  | .forbidden _ => 403
  | .internalError => 500

/-- The course lookup `SELECT * FROM courses WHERE id = $1` with
`fetch_optional`. -/
def findCourseById (db : List Course) (cid : Uuid) : Option Course :=
  db.find? (fun c => decide (c.id = cid))

/-- `update_course_by_id` from the course service: load the course (404
if absent), the ownership-or-admin check (403), then
`UPDATE courses SET title = $1, description = $2, updated_at = NOW()`
with `title = update.title.unwrap_or(course.title)` and
`description = update.description.clone()`, returning the updated row. -/
def update_course_by_id (db : List Course) (auth_user : AuthenticatedUser)
    (course_id : Uuid) (upd : UpdateCourse) (now : Nat) :
    UpdateResult × List Course :=
  match findCourseById db course_id with
  | none => (.notFound "Course not found", db)
  | some course =>
    if course.instructor_id ≠ auth_user.id ∧ auth_user.role ≠ .Admin then
      (.forbidden "You are not authorized to update this course", db)
    else
      let title := upd.title.getD course.title
      let description := upd.description
      let updated : Course :=
        { course with title := title, description := description, updated_at := now }
      let db2 := db.map (fun c =>
        if c.id = course_id then
          { c with title := title, description := description, updated_at := now }
        else c)
      (.okCourse updated, db2)

/-- Outcome of `delete_course_by_id`, mirroring its `HttpResponse`s:
note there is no Forbidden outcome in this handler. -/
inductive DeleteResult where
  | noContent
  | notFound (body : String)
  | internalError
deriving DecidableEq, Repr

/-- HTTP status of a delete outcome. -/
def DeleteResult.status : DeleteResult → Nat
  | .noContent => 204
  | .notFound _ => 404
  | .internalError => 500

/-- The WHERE clause of the delete query:
`DELETE FROM courses WHERE id = $1` for an Admin,
`DELETE FROM courses WHERE id = $1 AND instructor_id = $2` otherwise. -/
def delete_matches (auth_user : AuthenticatedUser) (course_id : Uuid) : Course → Bool :=
  if auth_user.role = .Admin then fun c => decide (c.id = course_id)
  else fun c => decide (c.id = course_id ∧ c.instructor_id = auth_user.id)

/-- `delete_course_by_id` from the course service: run the role-dependent
DELETE, answer 204 exactly when `rows_affected == 1` and 404 with
"Course not found or you are not the owner" otherwise. -/
def delete_course_by_id (db : List Course) (auth_user : AuthenticatedUser)
    (course_id : Uuid) : DeleteResult × List Course :=
  let affected := db.countP (delete_matches auth_user course_id)
  let db2 := db.filter (fun c => !(delete_matches auth_user course_id c))
  if affected = 1 then (.noContent, db2)
  else (.notFound "Course not found or you are not the owner", db2)

/-- The `Role` enum of src/jwt_auth.rs (distinct from ccb-common's
`UserRole`). -/
inductive Role where
  | Student
  | Instructor
  | Admin
deriving DecidableEq, Repr

/-- `JwtMiddlewareService` of src/jwt_auth.rs: the wrapped inner service
together with the configured `required_roles`. The inner service is
modelled as a function from requests to a response-or-error. -/
structure JwtMiddlewareService (S : Type) where
  service : S
  required_roles : List Role

/-- `JwtMiddleware::new_transform`: wraps the inner service, copying the
configured roles. -/
def JwtMiddleware.new_transform (required_roles : List Role) {S : Type}
    (service : S) : JwtMiddlewareService S :=
  ⟨service, required_roles⟩

/-- `JwtMiddlewareService::call` of src/jwt_auth.rs: awaits the inner
service's future and returns its result (`let res = fut.await?; Ok(res)`);
the token-validation logic is explicitly left out in the source. -/
def JwtMiddlewareService.call {Req E Resp : Type}
    (m : JwtMiddlewareService (Req → Except E Resp)) (req : Req) : Except E Resp :=
  match m.service req with
  | .error e => .error e
  | .ok res => .ok res

/-! ### Concrete fixtures used by the witness theorems -/

/-- A concrete stand-in for the bcrypt hash primitive. -/
def exHashFn : String → Except String String := fun pw => .ok ("h:" ++ pw)

/-- A concrete stand-in for the bcrypt verify primitive, matching
`exHashFn`. -/
def exVerify : String → String → Except String Bool :=
  fun pw h => .ok (decide (h = "h:" ++ pw))

/-- A concrete stored user. -/
def exUserAlice : User := ⟨7, "alice", "a@x.com", "A", "L", "h:pw1", .Student, 0⟩

/-- A second concrete stored user. -/
def exUserBob : User := ⟨8, "bob", "b@x.com", "B", "M", "h:pw2", .Instructor, 0⟩

/-- A concrete users table. -/
def exUsers : List User := [exUserAlice, exUserBob]

/-- A concrete course, owned by instructor 10. -/
def exCourseA : Course := ⟨1, "T1", some "D1", 10, 0, 0⟩

/-- A concrete courses table. -/
def exCourses : List Course := [exCourseA]

/-! ### Claim theorems -/

/-- C5: `Decode` rejects every token whose expiry is at or before the
current time, regardless of signature validity (the signing secret `s`
is arbitrary, matching or not), and rejects every token signed with a
secret different from the verifying secret. -/
theorem decode_rejects_expired_or_wrong_secret (secret s : String) (now : Nat)
    (payload : Claims) (h : payload.exp ≤ now ∨ s ≠ secret) :
    decodeJwt secret now (.signed payload s) = none := by
  have hc : ¬(s = secret ∧ now < payload.exp) := by
    rintro ⟨hs, hlt⟩
    rcases h with h | h
    · omega
    · exact h hs
  simp [decodeJwt, hc]

/-- C5 witness: a validly signed token expired exactly now is rejected,
and a fresh token signed with the wrong secret is rejected. -/
theorem decode_rejects_expired_or_wrong_secret_witness :
    decodeJwt "k1" 10 (.signed ⟨"7", .Student, 10⟩ "k1") = none ∧
    decodeJwt "k1" 0 (.signed ⟨"7", .Student, 10⟩ "k2") = none :=
  ⟨decode_rejects_expired_or_wrong_secret "k1" "k1" 10 ⟨"7", .Student, 10⟩
      (Or.inl (by decide)),
   decode_rejects_expired_or_wrong_secret "k1" "k2" 0 ⟨"7", .Student, 10⟩
      (Or.inr (by decide))⟩

/-- C7: decoding the token produced by encoding some claims with the
same secret recovers exactly the original claims (subject, role and
expiry), provided the expiry is still in the future at decode time. -/
theorem decode_encode_roundtrip (secret : String) (now : Nat) (c : Claims)
    (h : now < c.exp) :
    decodeJwt secret now (encodeJwt secret c) = some c := by
  simp [decodeJwt, encodeJwt, h]

/-- C7 witness: a concrete round trip inside the validity window. -/
theorem decode_encode_roundtrip_witness :
    decodeJwt "k1" 0 (encodeJwt "k1" ⟨"7", .Admin, 5⟩) = some ⟨"7", .Admin, 5⟩ :=
  decode_encode_roundtrip "k1" 0 ⟨"7", .Admin, 5⟩ (by decide)

/-- C9: for every inner service, configured role list and request,
`JwtMiddlewareService::call` returns exactly the inner service's
response on the unchanged request: the middleware validates nothing. -/
theorem jwt_middleware_forwards_unchanged (Req E Resp : Type)
    (svc : Req → Except E Resp) (roles : List Role) (req : Req) :
    JwtMiddlewareService.call ⟨svc, roles⟩ req = svc req := by
  cases h : svc req <;> simp [JwtMiddlewareService.call, h]

/-- C6: a successful login issues a token whose claims carry exactly the
principal's id rendered as a string, the principal's stored role, and an
expiry 24 hours (86400 seconds) after the current time. -/
theorem login_issues_expected_claims
    (pwVerify : String → String → Except String Bool) (secret : String)
    (now : Nat) (db : List User) (creds : LoginUser) (u : User)
    (hfind : findUserByUsername db creds.username = some u)
    (hpw : pwVerify creds.password u.password_hash = .ok true) :
    login pwVerify (some secret) now db creds =
      .okToken (encodeJwt secret ⟨uuidToString u.id, u.role, now + 24 * 60 * 60⟩) := by
  simp [login, hfind, hpw]

/-- C6 witness: logging in as the concrete stored user yields a token
with subject "7", the stored Student role, and expiry now + 86400. -/
theorem login_issues_expected_claims_witness :
    login exVerify (some "k1") 100 exUsers ⟨"alice", "pw1"⟩ =
      .okToken (.signed ⟨"7", .Student, 86500⟩ "k1") := by
  have h := login_issues_expected_claims exVerify "k1" 100 exUsers ⟨"alice", "pw1"⟩
      exUserAlice rfl rfl
  simpa [encodeJwt, exUserAlice, uuidToString] using h

/-- C4: the login response for a username that does not exist is
identical (same status and body) to the response for an existing
username with a non-matching password, at any times and configured
secrets. -/
theorem login_failure_indistinguishable
    (pwVerify : String → String → Except String Bool) (env env2 : Option String)
    (now now2 : Nat) (db : List User) (c1 c2 : LoginUser) (u : User)
    (h1 : findUserByUsername db c1.username = none)
    (h2 : findUserByUsername db c2.username = some u)
    (h3 : pwVerify c2.password u.password_hash = .ok false) :
    login pwVerify env now db c1 = .unauthorized "Invalid username or password" ∧
    login pwVerify env2 now2 db c2 = .unauthorized "Invalid username or password" ∧
    login pwVerify env now db c1 = login pwVerify env2 now2 db c2 := by
  refine ⟨?_, ?_, ?_⟩ <;> simp [login, h1, h2, h3]

/-- C4 witness: an unknown username and a wrong password against the
concrete table produce the same unauthorized response. -/
theorem login_failure_indistinguishable_witness :
    login exVerify (some "k1") 5 exUsers ⟨"carol", "x"⟩ =
      login exVerify none 9 exUsers ⟨"alice", "wrong"⟩ :=
  (login_failure_indistinguishable exVerify (some "k1") none 5 9 exUsers
    ⟨"carol", "x"⟩ ⟨"alice", "wrong"⟩ exUserAlice rfl rfl rfl).2.2

/-- C10: in a permitted update, the stored title is the request title
when present and the old title when omitted, while the stored
description is always the request's description value — omitting it
stores null. -/
theorem update_overwrites_description (db : List Course) (u : AuthenticatedUser)
    (cid : Uuid) (upd : UpdateCourse) (now : Nat) (c : Course)
    (hfind : findCourseById db cid = some c)
    (hperm : c.instructor_id = u.id ∨ u.role = .Admin) :
    ∃ res, (update_course_by_id db u cid upd now).1 = .okCourse res ∧
      res.title = upd.title.getD c.title ∧
      (upd.title = none → res.title = c.title) ∧
      res.description = upd.description := by
  have hcond : ¬(c.instructor_id ≠ u.id ∧ u.role ≠ .Admin) := by
    rcases hperm with h | h
    · intro hc; exact hc.1 h
    · intro hc; exact hc.2 h
  refine ⟨{ c with
      title := upd.title.getD c.title
      description := upd.description
      updated_at := now }, ?_, rfl, ?_, rfl⟩
  · simp [update_course_by_id, hfind, hcond]
  · intro ht; simp [ht]

/-- C10 witness: the owner updates the concrete course with both fields
omitted; the stored description becomes none although it was some. -/
theorem update_overwrites_description_witness :
    exCourseA.description = some "D1" ∧
    ∃ res, (update_course_by_id exCourses ⟨10, .Instructor⟩ 1 ⟨none, none⟩ 99).1 =
        .okCourse res ∧ res.description = none := by
  obtain ⟨res, hres, _, _, hdesc⟩ :=
    update_overwrites_description exCourses ⟨10, .Instructor⟩ 1 ⟨none, none⟩ 99
      exCourseA (by decide) (Or.inl (by decide))
  exact ⟨rfl, res, hres, by simpa using hdesc⟩

/-- C8: registering a username that already exists in the table yields
Conflict and leaves the table (in particular the existing row)
unmodified; any other storage failure during the insert yields
Internal, also leaving the table unmodified. -/
theorem register_conflict_and_internal
    (hashFn : String → Except String String) (db : List User)
    (reg : RegisterUser) (newId : Uuid) (now : Nat) (ph : String)
    (hhash : hashFn reg.password = .ok ph) :
    ((∃ u ∈ db, u.username = reg.username) →
      register hashFn db reg newId now none = (.conflict "Username already exists", db)) ∧
    register hashFn db reg newId now (some .otherFailure) =
      (.internalError "Failed to create user", db) := by
  constructor
  · rintro ⟨u, hu, hname⟩
    have hany : db.any (fun w => decide (w.username = reg.username)) = true := by
      rw [List.any_eq_true]
      exact ⟨u, hu, by simpa using hname⟩
    simp [register, hhash, insert_user, hany]
  · simp [register, hhash, insert_user]

/-- C8 witness: registering "alice" again against the concrete table
yields Conflict with the table unchanged. -/
theorem register_conflict_and_internal_witness :
    register exHashFn exUsers ⟨"alice", "pw9", "e", "F", "L"⟩ 9 50 none =
      (.conflict "Username already exists", exUsers) :=
  (register_conflict_and_internal exHashFn exUsers ⟨"alice", "pw9", "e", "F", "L"⟩
    9 50 "h:pw9" rfl).1 ⟨exUserAlice, by decide, rfl⟩

/-- C3: the Identity Extractor succeeds exactly when the Authorization
header is present, carries the exact "Bearer " prefix, the token decodes,
and the decoded subject parses as a UUID; on success it binds the parsed
subject as the id and the decoded role; and every rejection yields the
one same Unauthorized message. -/
theorem identity_extractor_correct (env : Option String) (now : Nat)
    (hdr : Option AuthHeaderValue) :
    ((∃ a, from_request env now hdr = .ok a) ↔
      ∃ t c uid, hdr = some (.bearer t) ∧
        decodeJwt (jwtSecretOf env) now t = some c ∧ uuidParse c.sub = some uid) ∧
    (∀ t c uid, hdr = some (.bearer t) →
      decodeJwt (jwtSecretOf env) now t = some c → uuidParse c.sub = some uid →
      from_request env now hdr = .ok ⟨uid, c.role⟩) ∧
    (∀ e, from_request env now hdr = .error e → e = "Invalid or missing token") := by
  cases hdr with
  | none => simp [from_request]
  | some v =>
    cases v with
    | other s => simp [from_request]
    | bearer t =>
      cases hdec : decodeJwt (jwtSecretOf env) now t with
      | none =>
        simp [from_request, hdec]
        intro t1 c uid ht hd
        subst ht
        rw [hdec] at hd
        exact Option.noConfusion hd
      | some c =>
        cases hp : uuidParse c.sub with
        | none =>
          simp [from_request, hdec, hp]
          intro t1 c1 uid ht hd
          subst ht
          rw [hdec] at hd
          cases hd
          simp [hp]
        | some uid =>
          simp [from_request, hdec, hp]
          intro t1 c1 uid1 ht hd hp1
          subst ht
          rw [hdec] at hd
          cases hd
          rw [hp] at hp1
          cases hp1
          exact ⟨rfl, rfl⟩

/-- C3 witness: a well-formed bearer token with a parseable subject binds
the expected principal. -/
theorem identity_extractor_correct_witness :
    from_request (some "k1") 0 (some (.bearer (.signed ⟨"7", .Admin, 5⟩ "k1"))) =
      .ok ⟨7, .Admin⟩ :=
  (identity_extractor_correct (some "k1") 0
      (some (.bearer (.signed ⟨"7", .Admin, 5⟩ "k1")))).2.1
    (.signed ⟨"7", .Admin, 5⟩ "k1") ⟨"7", .Admin, 5⟩ 7 rfl (by decide) rfl

/-- C2 counterexample: with `JWT_SECRET` absent from the environment the
auth service's startup succeeds (nothing fails fast at startup), and the
extractor silently verifies a request with a token signed under the
fallback value "default_secret" — the operation proceeds rather than
failing. -/
theorem jwt_secret_absent_no_startup_failure :
    auth_main_startup ⟨none, some "postgres"⟩ = .ok () ∧
    from_request none 5 (some (.bearer (.signed ⟨"7", .Student, 10⟩ "default_secret"))) =
      .ok ⟨7, .Student⟩ := by
  exact ⟨rfl, rfl⟩

/-- C2 (amended): `JWT_SECRET` is read from the environment at each
operation, not at startup: startup succeeds whatever its value; the
token-issuing login path fails the operation loudly (panics) when it is
absent; and the token-verifying path behaves, when it is absent, exactly
as if the fixed value "default_secret" had been configured (a silent
fallback). -/
theorem jwt_secret_read_per_operation (dbUrl : String) (now now2 : Nat)
    (hdr : Option AuthHeaderValue)
    (pwVerify : String → String → Except String Bool) (db : List User)
    (creds : LoginUser) (u : User)
    (hfind : findUserByUsername db creds.username = some u)
    (hpw : pwVerify creds.password u.password_hash = .ok true) :
    auth_main_startup ⟨none, some dbUrl⟩ = .ok () ∧
    login pwVerify none now db creds = .panicked "JWT_SECRET must be set" ∧
    from_request none now2 hdr = from_request (some "default_secret") now2 hdr := by
  refine ⟨rfl, ?_, rfl⟩
  simp [login, hfind, hpw]

/-- C2 witness: the concrete stored user logs in with the right password
while `JWT_SECRET` is absent; the operation panics loudly. -/
theorem jwt_secret_read_per_operation_witness :
    login exVerify none 100 exUsers ⟨"alice", "pw1"⟩ =
      .panicked "JWT_SECRET must be set" :=
  (jwt_secret_read_per_operation "postgres" 100 0 none exVerify exUsers
    ⟨"alice", "pw1"⟩ exUserAlice rfl rfl).2.1

/-- Helper: a list whose elements pairwise cannot both satisfy `p`, but
which contains one satisfying element, has `countP p = 1`. -/
theorem countP_eq_one_of_pairwise {α : Type} (l : List α) (p : α → Bool)
    (hpair : l.Pairwise (fun a b => ¬(p a = true ∧ p b = true)))
    (c : α) (hc : c ∈ l) (hpc : p c = true) : l.countP p = 1 := by
  induction l with
  | nil => cases hc
  | cons a t ih =>
    rcases List.pairwise_cons.mp hpair with ⟨ha, ht⟩
    by_cases hpa : p a = true
    · have h0 : t.countP p = 0 := by
        rw [List.countP_eq_zero]
        intro d hd hpd
        exact ha d hd ⟨hpa, hpd⟩
      simp [List.countP_cons, hpa, h0]
    · rcases List.mem_cons.mp hc with rfl | hct
      · exact absurd hpc hpa
      · have h1 := ih ht hct
        simp [List.countP_cons, hpa, h1]

/-- Helper: in a list with pairwise-distinct ids, equal ids force equal
elements. -/
theorem course_eq_of_id_eq (l : List Course)
    (h : l.Pairwise (fun a b => a.id ≠ b.id)) :
    ∀ a ∈ l, ∀ b ∈ l, a.id = b.id → a = b := by
  induction l with
  | nil => intro a ha; cases ha
  | cons x t ih =>
    intro a ha b hb hab
    rcases List.pairwise_cons.mp h with ⟨hx, ht⟩
    rcases List.mem_cons.mp ha with rfl | ha2
    · rcases List.mem_cons.mp hb with rfl | hb2
      · rfl
      · exact absurd hab (hx b hb2)
    · rcases List.mem_cons.mp hb with rfl | hb2
      · exact absurd hab.symm (hx a ha2)
      · exact ih ht a ha2 b hb2 hab

/-- Helper: any row matched by the delete WHERE clause has the requested
id. -/
theorem delete_matches_id (u : AuthenticatedUser) (cid : Uuid) (x : Course)
    (hx : delete_matches u cid x = true) : x.id = cid := by
  unfold delete_matches at hx
  by_cases hA : u.role = .Admin
  · simpa [hA] using hx
  · simp [hA] at hx
    exact hx.1

/-- Helper: when no row of the table is matched by the delete WHERE
clause, the delete answers 404 and leaves the table unchanged. -/
theorem delete_no_match (db : List Course) (u : AuthenticatedUser) (cid : Uuid)
    (hp0 : ∀ c ∈ db, ¬(delete_matches u cid c = true)) :
    delete_course_by_id db u cid =
      (.notFound "Course not found or you are not the owner", db) := by
  have hcount : db.countP (delete_matches u cid) = 0 := by
    rw [List.countP_eq_zero]
    exact hp0
  have hfilt : db.filter (fun c => !(delete_matches u cid c)) = db := by
    rw [List.filter_eq_self]
    intro a ha
    have h := hp0 a ha
    simp only [Bool.not_eq_true] at h
    simp [h]
  simp [delete_course_by_id, hcount, hfilt]

/-- C1 counterexample: the course with id 1 exists and is owned by
instructor 10, the requesting principal 20 has role Student (neither
owner nor Admin), yet the delete answers 404 Not Found — not the 403
Forbidden the claim requires for that case. -/
theorem delete_not_owner_not_forbidden :
    (findCourseById exCourses 1).isSome = true ∧
    exCourseA.instructor_id ≠ (20 : Uuid) ∧
    delete_course_by_id exCourses ⟨20, .Student⟩ 1 =
      (.notFound "Course not found or you are not the owner", exCourses) ∧
    (delete_course_by_id exCourses ⟨20, .Student⟩ 1).1.status = 404 := by
  refine ⟨rfl, by decide, by decide, rfl⟩

/-- C1 (amended): for update the claim holds as stated: absent course →
404, else permitted iff owner or Admin, else 403. For delete the denial
is folded into the WHERE clause: an absent course, and equally an
existing course whose owner differs from a non-Admin principal, both
answer 404 (with the table untouched); a permitted delete (owner or
Admin, course present, ids unique) answers 204; delete never answers
403. -/
theorem course_mutation_gate (db : List Course) (u : AuthenticatedUser)
    (cid : Uuid) (upd : UpdateCourse) (now : Nat)
    (hids : db.Pairwise (fun a b => a.id ≠ b.id)) :
    (findCourseById db cid = none →
      (update_course_by_id db u cid upd now).1 = .notFound "Course not found") ∧
    (∀ c, findCourseById db cid = some c → c.instructor_id ≠ u.id →
      u.role ≠ .Admin →
      (update_course_by_id db u cid upd now).1 =
        .forbidden "You are not authorized to update this course") ∧
    (∀ c, findCourseById db cid = some c →
      (c.instructor_id = u.id ∨ u.role = .Admin) →
      ∃ res, (update_course_by_id db u cid upd now).1 = .okCourse res) ∧
    ((∀ c ∈ db, c.id ≠ cid) →
      delete_course_by_id db u cid =
        (.notFound "Course not found or you are not the owner", db)) ∧
    (∀ c, c ∈ db → c.id = cid → c.instructor_id ≠ u.id → u.role ≠ .Admin →
      delete_course_by_id db u cid =
        (.notFound "Course not found or you are not the owner", db)) ∧
    (∀ c, c ∈ db → c.id = cid → (c.instructor_id = u.id ∨ u.role = .Admin) →
      (delete_course_by_id db u cid).1 = .noContent) ∧
    (delete_course_by_id db u cid).1.status ≠ 403 := by
  refine ⟨?_, ?_, ?_, ?_, ?_, ?_, ?_⟩
  · intro h
    simp [update_course_by_id, h]
  · intro c hfind hown hrole
    simp [update_course_by_id, hfind, hown, hrole]
  · intro c hfind hperm
    have hcond : ¬(c.instructor_id ≠ u.id ∧ u.role ≠ .Admin) := by
      rcases hperm with h | h
      · intro hc; exact hc.1 h
      · intro hc; exact hc.2 h
    refine ⟨{ c with
        title := upd.title.getD c.title
        description := upd.description
        updated_at := now }, ?_⟩
    simp [update_course_by_id, hfind, hcond]
  · intro habs
    refine delete_no_match db u cid ?_
    intro c hc hpc
    exact habs c hc (delete_matches_id u cid c hpc)
  · intro c hcmem hcid hown hrole
    refine delete_no_match db u cid ?_
    intro d hd hpd
    have hdid : d.id = cid := delete_matches_id u cid d hpd
    have hdc : d = c := course_eq_of_id_eq db hids d hd c hcmem (hdid.trans hcid.symm)
    unfold delete_matches at hpd
    rw [if_neg hrole] at hpd
    simp at hpd
    exact hown (by rw [← hdc]; exact hpd.2)
  · intro c hcmem hcid hperm
    have hpair : db.Pairwise
        (fun a b => ¬(delete_matches u cid a = true ∧ delete_matches u cid b = true)) := by
      refine List.Pairwise.imp ?_ hids
      intro a b hab ⟨hpa, hpb⟩
      exact hab ((delete_matches_id u cid a hpa).trans (delete_matches_id u cid b hpb).symm)
    have hpc : delete_matches u cid c = true := by
      unfold delete_matches
      by_cases hA : u.role = .Admin
      · simp [hA, hcid]
      · rcases hperm with how | hA2
        · simp [hA, hcid, how]
        · exact absurd hA2 hA
    have hcount : db.countP (delete_matches u cid) = 1 :=
      countP_eq_one_of_pairwise db (delete_matches u cid) hpair c hcmem hpc
    simp [delete_course_by_id, hcount]
  · by_cases h : db.countP (delete_matches u cid) = 1 <;>
      simp [delete_course_by_id, h, DeleteResult.status]

/-- C1 witness: the owning instructor (role Student here, to show the
role is irrelevant for the owner) deletes the concrete course, and the
non-owner update on it is 403 while a missing id is 404. -/
theorem course_mutation_gate_witness :
    (delete_course_by_id exCourses ⟨10, .Student⟩ 1).1 = .noContent ∧
    (update_course_by_id exCourses ⟨20, .Student⟩ 1 ⟨none, none⟩ 0).1 =
      .forbidden "You are not authorized to update this course" := by
  have h10 := course_mutation_gate exCourses ⟨10, .Student⟩ 1 ⟨none, none⟩ 0
    (by simp [exCourses])
  have h20 := course_mutation_gate exCourses ⟨20, .Student⟩ 1 ⟨none, none⟩ 0
    (by simp [exCourses])
  exact ⟨h10.2.2.2.2.2.1 exCourseA (by decide) rfl (Or.inl rfl),
    h20.2.1 exCourseA (by decide) (by decide) (by decide)⟩

end Ccb
